import Mathlib

/-!
Shallow embedding of the `sp_log2` log-record rendering engine
(`src/loggers/logging.rs`, `src/config.rs`), with theorems settling the
frozen claims about its natural-language specification.

Strings from the Rust side are modelled as `List Char`; byte indices of the
Rust code coincide with character indices on the ASCII inputs the claims are
about.  Machine integers (`u8`) are modelled as `Nat` with explicit range
checks exactly where the Rust code checks or cannot overflow.
-/

namespace SpLog

/-- The character code of the placeholder-opening brace. -/
def lbraceChar : Char := Char.ofNat 123

/-- The character code of the placeholder-closing brace. -/
def rbraceChar : Char := Char.ofNat 125

/-- Slice `cs[a..b]` of a character list, mirroring Rust `&s[a..b]`
(on the ASCII inputs of the claims byte and char indices agree). -/
def sliceCL (cs : List Char) (a b : Nat) : List Char :=
  (cs.drop a).take (b - a)

/-- Rust `str::split(sep)` on a single separator character:
always returns at least one (possibly empty) piece. -/
def splitOnChar (sep : Char) : List Char → List (List Char)
  | [] => [[]]
  | c :: rest =>
    let r := splitOnChar sep rest
    if c = sep then [] :: r
    else
      match r with
      | [] => [[c]]
      | h :: t => (c :: h) :: t

/-- Rust `str::trim` (whitespace on both ends). -/
def trimCL (s : List Char) : List Char :=
  ((s.dropWhile Char.isWhitespace).reverse.dropWhile Char.isWhitespace).reverse

/-- Rust `u8::is_ascii` for a whole string: every code point below 128. -/
def allAscii (s : List Char) : Bool :=
  s.all (fun c => c.toNat < 128)

/-- Rust `char::to_digit(radix)`: value of one digit character, `none` when
the character is not a digit of the radix. -/
def digitValue (radix : Nat) (c : Char) : Option Nat :=
  let n := c.toNat
  let v :=
    if 48 ≤ n ∧ n ≤ 57 then some (n - 48)
    else if 97 ≤ n ∧ n ≤ 122 then some (n - 97 + 10)
    else if 65 ≤ n ∧ n ≤ 90 then some (n - 65 + 10)
    else none
  match v with
  | some d => if d < radix then some d else none
  | none => none

/-- Digit-run accumulator of Rust `u8::from_str_radix` (after the sign):
requires a non-empty digit run; the final bound check `≤ 255` is equivalent
to Rust's per-step overflow check because the accumulator is monotone. -/
def parseDigitsU8 (radix : Nat) (cs : List Char) : Option Nat :=
  match cs with
  | [] => none
  | _ =>
    let v := cs.foldl
      (fun acc c => acc.bind fun a => (digitValue radix c).map fun d => a * radix + d)
      (some 0)
    v.bind fun n => if n ≤ 255 then some n else none

/-- Rust `u8::from_str_radix(s, radix)` / `s.parse::<u8>()`: an optional
leading `+` (a `-` is not accepted for unsigned types), then digits. -/
def parseU8Radix (radix : Nat) (cs : List Char) : Option Nat :=
  match cs with
  | [] => none
  | c :: rest => if c = '+' then parseDigitsU8 radix rest else parseDigitsU8 radix cs

/-- The `termcolor::Color` value space used by the crate (named colors,
ANSI-256 codes and RGB triples). -/
inductive Color where
  | black | blue | green | red | cyan | magenta | yellow | white
  | ansi256 (n : Nat)
  | rgb (r g b : Nat)
deriving DecidableEq

/-- ASCII lowercase map (`str::to_ascii_lowercase`; the Unicode
`to_lowercase` of the dependency agrees with it on the ASCII tokens
involved in the claims). -/
def asciiLower (s : List Char) : List Char :=
  s.map fun c => if 65 ≤ c.toNat ∧ c.toNat ≤ 90 then Char.ofNat (c.toNat + 32) else c

/-- `parse_percent_or_255` (logging.rs:223-231): a trailing `%` is stripped
and the rest parsed as `u8` with flag `true`; otherwise the whole token is
parsed as `u8` with flag `false`.  The numeric value is returned unchanged
in both cases. -/
def parsePercentOr255 (s : List Char) : Option (Nat × Bool) :=
  if s.getLast? = some '%' then
    (parseU8Radix 10 s.dropLast).map fun t => (t, true)
  else
    (parseU8Radix 10 s).map fun t => (t, false)

/-- `parse_hex` (logging.rs:233-255): ASCII check, then a 3-digit body with
each digit multiplied by 17, or a 6-digit body read pairwise; any other
length is `none`. -/
def parseHex (s : List Char) : Option Color :=
  if ¬ allAscii s then none
  else if s.length = 3 then
    (parseU8Radix 16 (sliceCL s 0 1)).bind fun a =>
    (parseU8Radix 16 (sliceCL s 1 2)).bind fun b =>
    (parseU8Radix 16 (sliceCL s 2 3)).map fun c =>
      Color.rgb (a * 17) (b * 17) (c * 17)
  else if s.length = 6 then
    (parseU8Radix 16 (sliceCL s 0 2)).bind fun a =>
    (parseU8Radix 16 (sliceCL s 2 4)).bind fun b =>
    (parseU8Radix 16 (sliceCL s 4 6)).map fun c =>
      Color.rgb a b c
  else none

/-- The `rgb.split(',').map(trim)` preprocessing of `parse_rgb`. -/
def splitTrim (s : List Char) : List (List Char) :=
  (splitOnChar ',' s).map trimCL

/-- `parse_rgb` (logging.rs:257-273): exactly three comma-separated
components, each parsed by `parse_percent_or_255`; the triple is accepted
only when all three unit flags agree, and the raw component values become
the color. -/
def parseRgb (rgbS : List Char) : Option Color :=
  let params := splitTrim rgbS
  if params.length ≠ 3 then none
  else
    match parsePercentOr255 (params.getD 0 []),
          parsePercentOr255 (params.getD 1 []),
          parsePercentOr255 (params.getD 2 []) with
    | some (rv, rf), some (gv, gf), some (bv, bf) =>
      if rf = gf ∧ gf = bf then some (Color.rgb rv gv bv) else none
    | _, _, _ => none

/-- The `0x`-aware number parser of the `termcolor` dependency
(`parse_number` inside `Color::from_str_numeric`). -/
def parseNumberTC (s : List Char) : Option Nat :=
  if ['0', 'x'].isPrefixOf s then parseU8Radix 16 (s.drop 2)
  else parseU8Radix 10 s

/-- `<termcolor::Color as FromStr>::from_str`, modelled from the dependency:
a lowercased standard color name, else a single ANSI-256 code, else an
`r,g,b` triple of numbers; parse errors become `none`. -/
def colorFromStr (s : List Char) : Option Color :=
  let ls := asciiLower s
  if ls = "black".toList then some Color.black
  else if ls = "blue".toList then some Color.blue
  else if ls = "green".toList then some Color.green
  else if ls = "red".toList then some Color.red
  else if ls = "cyan".toList then some Color.cyan
  else if ls = "magenta".toList then some Color.magenta
  else if ls = "yellow".toList then some Color.yellow
  else if ls = "white".toList then some Color.white
  else
    let codes := splitOnChar ',' s
    if codes.length = 1 then
      (parseNumberTC (codes.getD 0 [])).map Color.ansi256
    else if codes.length = 3 then
      (parseNumberTC (codes.getD 0 [])).bind fun a =>
      (parseNumberTC (codes.getD 1 [])).bind fun b =>
      (parseNumberTC (codes.getD 2 [])).map fun c => Color.rgb a b c
    else none

/-- `apply_style` (logging.rs:275-301): try the hex form (optionally with a
`bg` marker), then the `rgb(...)`/`bgrgb(...)` form, then a named color
optionally after a `bg` marker; the boolean is `true` for foreground.  A
failed hex or rgb attempt falls through to the later rules, as in the
source. -/
def applyStyle (style : List Char) : Option (Color × Bool) :=
  let startsHash := ['#'].isPrefixOf style
  let startsBgHash := ['b', 'g', '#'].isPrefixOf style
  let hexTry : Option (Color × Bool) :=
    if startsHash || startsBgHash then
      let pl := if startsHash then 1 else 3
      (parseHex (sliceCL style pl style.length)).map fun c => (c, startsHash)
    else none
  match hexTry with
  | some r => some r
  | none =>
    let startsRgb := ['r', 'g', 'b', '('].isPrefixOf style
    let startsBgRgb := ['b', 'g', 'r', 'g', 'b', '('].isPrefixOf style
    let rgbTry : Option (Color × Bool) :=
      if startsRgb || startsBgRgb then
        let pl := if startsRgb then 4 else 6
        (parseRgb (sliceCL style pl (style.length - 1))).map fun c => (c, startsRgb)
      else none
    match rgbTry with
    | some r => some r
    | none =>
      if ['b', 'g'].isPrefixOf style then
        (colorFromStr (style.drop 2)).map fun c => (c, false)
      else
        (colorFromStr style).map fun c => (c, true)

/-- The per-placeholder style state of the renderer: optional foreground and
background colors, the five boolean flags and the bracket-suppression flag
(`use_bracket_level`). -/
structure StyleDescriptor where
  fg : Option Color
  bg : Option Color
  bold : Bool
  italic : Bool
  dim : Bool
  underline : Bool
  strikethrough : Bool
  useBracketLevel : Bool
deriving DecidableEq

/-- The initial style state of one placeholder (logging.rs:388-400):
no colors, no flags, brackets on. -/
def initDescr : StyleDescriptor :=
  ⟨none, none, false, false, false, false, false, true⟩

/-- One iteration of the style-modifier loop (logging.rs:402-424): keyword
flags are matched case-insensitively; the bracket keywords act only when
the key is `level`; any other token goes to `apply_style`, and a color is
kept only when none was set before (`Option::or`). -/
def styleStep (key : List Char) (d : StyleDescriptor) (style : List Char) :
    StyleDescriptor :=
  let ls := asciiLower style
  if ls = "bold".toList then { d with bold := true }
  else if ls = "italic".toList then { d with italic := true }
  else if ls = "dim".toList then { d with dim := true }
  else if ls = "underline".toList then { d with underline := true }
  else if ls = "strikethrough".toList then { d with strikethrough := true }
  else if ls = "nb".toList ∨ ls = "nobrackets".toList ∨ ls = "no_brackets".toList then
    if key = "level".toList then { d with useBracketLevel := false } else d
  else
    match applyStyle style with
    | some (c, true) => { d with fg := d.fg <|> some c }
    | some (c, false) => { d with bg := d.bg <|> some c }
    | none => d

/-- The whole style-modifier loop over a placeholder's modifier tokens. -/
def resolveStyles (key : List Char) (styles : List (List Char)) : StyleDescriptor :=
  styles.foldl (styleStep key) initDescr

/-- The foreground color contributed by one modifier token, mirroring the
branch structure of `styleStep`: keyword tokens contribute nothing, other
tokens contribute their `apply_style` color when it is a foreground. -/
def fgTok (style : List Char) : Option Color :=
  let ls := asciiLower style
  if ls = "bold".toList then none
  else if ls = "italic".toList then none
  else if ls = "dim".toList then none
  else if ls = "underline".toList then none
  else if ls = "strikethrough".toList then none
  else if ls = "nb".toList ∨ ls = "nobrackets".toList ∨ ls = "no_brackets".toList then none
  else
    match applyStyle style with
    | some (c, true) => some c
    | _ => none

/-- The background color contributed by one modifier token (see `fgTok`). -/
def bgTok (style : List Char) : Option Color :=
  let ls := asciiLower style
  if ls = "bold".toList then none
  else if ls = "italic".toList then none
  else if ls = "dim".toList then none
  else if ls = "underline".toList then none
  else if ls = "strikethrough".toList then none
  else if ls = "nb".toList ∨ ls = "nobrackets".toList ∨ ls = "no_brackets".toList then none
  else
    match applyStyle style with
    | some (c, false) => some c
    | _ => none

/-- Whether one modifier token is a bracket-suppression keyword, reached as
in the `styleStep` branch order. -/
def suppTok (style : List Char) : Bool :=
  let ls := asciiLower style
  if ls = "bold".toList then false
  else if ls = "italic".toList then false
  else if ls = "dim".toList then false
  else if ls = "underline".toList then false
  else if ls = "strikethrough".toList then false
  else if ls = "nb".toList ∨ ls = "nobrackets".toList ∨ ls = "no_brackets".toList then true
  else false

/-- The seven field strings handed to `parse_and_format_log_internal`
(level, time, thread, target, file, module, message). -/
structure Fields where
  level : List Char
  time : List Char
  thread : List Char
  target : List Char
  file : List Char
  moduleF : List Char
  message : List Char
deriving DecidableEq

/-- The recognized placeholder keys of the renderer's `match`. -/
def knownKeys : List (List Char) :=
  ["time".toList, "thread".toList, "target".toList, "level".toList,
   "file".toList, "module".toList, "message".toList]

/-- The modifier tokens of a placeholder body: everything after the first
colon (logging.rs:392). -/
def stylesOf (ph : List Char) : List (List Char) :=
  let parts := splitOnChar ':' ph
  if parts.length > 1 then parts.tail else []

/-- The text a single resolved placeholder writes (logging.rs:384-464):
the body is split on `:` into key and modifiers; `use_bracket_level` is
computed from the modifiers only when rendering to a terminal; the key
selects the field, `level` being bracketed unless suppressed, and an
unknown key re-emits the placeholder body itself.  (The terminal's
`set_color`/`reset` control writes are modelled by `resolveStyles`, not as
text.) -/
def placeholderEmit (isTerminal : Bool) (f : Fields) (ph : List Char) : List Char :=
  let parts := splitOnChar ':' ph
  let key := parts.headD []
  let styles := if parts.length > 1 then parts.tail else []
  let ubl := if isTerminal then (resolveStyles key styles).useBracketLevel else true
  if key = "time".toList then f.time
  else if key = "thread".toList then f.thread
  else if key = "target".toList then f.target
  else if key = "level".toList then
    if ubl then '[' :: (f.level ++ [']']) else f.level
  else if key = "file".toList then f.file
  else if key = "module".toList then f.moduleF
  else if key = "message".toList then f.message
  else ph

/-- The mutable scan state of `parse_and_format_log_internal`:
the index `i`, the `last_end` marker, and the text written so far. -/
structure RState where
  i : Nat
  lastEnd : Nat
  out : List Char
deriving DecidableEq

/-- `format_str[i..].find(rbrace)` as an absolute index. -/
def findClose (tpl : List Char) (i : Nat) : Option Nat :=
  match (tpl.drop i).findIdx? (fun c => c = rbraceChar) with
  | some k => some (i + k)
  | none => none

/-- One iteration of the renderer's `while i < format_str.len()` loop
(logging.rs:372-479), returning either the next state or — when the loop
condition fails — the final output including the tail after `last_end`.
Note the faithful quirk: when the current character opens a placeholder but
no closing brace follows, the state is returned unchanged. -/
def renderStep (isTerminal : Bool) (f : Fields) (tpl : List Char) (s : RState) :
    Sum RState (List Char) :=
  if s.i < tpl.length then
    let c := (tpl.drop s.i).headD (Char.ofNat 0)
    if c = lbraceChar then
      match findClose tpl s.i with
      | some e =>
        let before := if s.lastEnd < s.i then sliceCL tpl s.lastEnd s.i else []
        let ph := sliceCL tpl (s.i + 1) e
        Sum.inl ⟨e + 1, e + 1, s.out ++ before ++ placeholderEmit isTerminal f ph⟩
      | none => Sum.inl s
    else Sum.inl { s with i := s.i + 1 }
  else
    Sum.inr (s.out ++ (if s.lastEnd < tpl.length then sliceCL tpl s.lastEnd tpl.length else []))

/-- Fuel-indexed iteration of `renderStep`; `none` means the loop did not
finish within `fuel` iterations (in particular it never finishes when a
state repeats). -/
def renderFuel (isTerminal : Bool) (f : Fields) (tpl : List Char) :
    Nat → RState → Option String
  | 0, _ => none
  | fuel + 1, s =>
    match renderStep isTerminal f tpl s with
    | Sum.inl s2 => renderFuel isTerminal f tpl fuel s2
    | Sum.inr out => some (String.mk out)

/-- Rendering a whole template from the initial state
(`last_end = 0`, `i = 0`, nothing written). -/
def renderFromStart (fuel : Nat) (isTerminal : Bool) (f : Fields) (tpl : List Char) :
    Option String :=
  renderFuel isTerminal f tpl fuel ⟨0, 0, []⟩

/-- `log::Level` (the record's severity); `toUsize` is its `as usize`
value, `Error` being smallest. -/
inductive Level where
  | error | warn | info | debug | trace
deriving DecidableEq

/-- The `as usize` value of a `log::Level`. -/
def Level.toUsize : Level → Nat
  | .error => 1
  | .warn => 2
  | .info => 3
  | .debug => 4
  | .trace => 5

/-- The `Display` text of a `log::Level`. -/
def Level.toStr : Level → String
  | .error => "ERROR"
  | .warn => "WARN"
  | .info => "INFO"
  | .debug => "DEBUG"
  | .trace => "TRACE"

/-- `log::LevelFilter`; comparisons with a `Level` go through `as usize`. -/
inductive LevelFilter where
  | off | error | warn | info | debug | trace
deriving DecidableEq

/-- The `as usize` value of a `log::LevelFilter`. -/
def LevelFilter.toUsize : LevelFilter → Nat
  | .off => 0
  | .error => 1
  | .warn => 2
  | .info => 3
  | .debug => 4
  | .trace => 5

/-- `LevelPadding` (config.rs:9-18). -/
inductive LevelPadding where
  | left | right | off
deriving DecidableEq

/-- `ThreadPadding` (config.rs:22-31). -/
inductive ThreadPadding where
  | left (w : Nat) | right (w : Nat) | off
deriving DecidableEq

/-- `TargetPadding` (config.rs:35-42). -/
inductive TargetPadding where
  | left (w : Nat) | right (w : Nat) | off
deriving DecidableEq

/-- `ThreadLogMode` (config.rs:46-53). -/
inductive ThreadLogMode where
  | ids | names | both
deriving DecidableEq

/-- `TimeFormat` (config.rs:56-60). -/
inductive TimeFormat where
  | rfc2822 | rfc3339 | custom (fmt : String)
deriving DecidableEq

/-- The `Format` bit flags (config.rs:63-81). -/
def FormatTime : Nat := 1
/-- `Format::LevelFlag`. -/
def FormatLevelFlag : Nat := 2
/-- `Format::Thread`. -/
def FormatThread : Nat := 4
/-- `Format::FileLocation`. -/
def FormatFileLocation : Nat := 8
/-- `Format::Target`. -/
def FormatTarget : Nat := 16
/-- `Format::Module`. -/
def FormatModule : Nat := 32

/-- `Config` (config.rs:114-129); the filter lists are plain string lists
(`Cow` only affects ownership). -/
structure Config where
  format : Nat
  levelPadding : LevelPadding
  threadLogMode : ThreadLogMode
  threadPadding : ThreadPadding
  targetPadding : TargetPadding
  minLevel : LevelFilter
  maxLevel : LevelFilter
  timeFormat : TimeFormat
  filterAllow : List String
  filterIgnore : List String
  levelColor : List (Option Color)
  enableColors : Bool
  lineEnding : String
  formatter : Option String
deriving DecidableEq

/-- `impl Default for Config` (config.rs:365-392). -/
def defaultConfig : Config where
  format := FormatLevelFlag ||| FormatTime ||| FormatThread ||| FormatTarget
  levelPadding := .off
  threadLogMode := .ids
  threadPadding := .off
  targetPadding := .off
  minLevel := .trace
  maxLevel := .error
  timeFormat := .custom "%H:%M:%S"
  filterAllow := []
  filterIgnore := []
  levelColor := [none, some .red, some .yellow, some .blue, some .cyan, some .white]
  enableColors := true
  lineEnding := "\n"
  formatter := none

/-- A log record as read by `try_log`: level, target, source location,
module path and the formatted message arguments. -/
structure Record where
  level : Level
  target : String
  file : Option String
  line : Option Nat
  modulePath : Option String
  args : String
deriving DecidableEq

/-- The ambient context `try_log` reads besides the record: the formatted
current time and the current thread's name and id (logging.rs:94-110 and
153-186 query the clock and `std::thread` directly). -/
structure Ctx where
  timeStr : String
  threadName : Option String
  threadId : String
deriving DecidableEq

/-- Rust `str::starts_with` on whole strings. -/
def strStarts (s p : String) : Bool :=
  p.toList.isPrefixOf s.toList

/-- `format!("\x7b: >w$\x7d", s)`: left-pad with spaces to width `w`. -/
def padStart (w : Nat) (s : String) : String :=
  String.mk (List.replicate (w - s.length) ' ') ++ s

/-- `format!("\x7b: <w$\x7d", s)`: right-pad with spaces to width `w`. -/
def padEnd (w : Nat) (s : String) : String :=
  s ++ String.mk (List.replicate (w - s.length) ' ')

/-- `write_level` (logging.rs:113-123): the level name, width-5 padded per
`level_padding`. -/
def writeLevel (config : Config) (record : Record) : String :=
  match config.levelPadding with
  | .left => padStart 5 record.level.toStr
  | .right => padEnd 5 record.level.toStr
  | .off => record.level.toStr

/-- `write_target` (logging.rs:126-133). -/
def writeTarget (config : Config) (record : Record) : String :=
  match config.targetPadding with
  | .left w => padStart w record.target
  | .right w => padEnd w record.target
  | .off => record.target

/-- `write_location` (logging.rs:136-144). -/
def writeLocation (record : Record) : String :=
  (record.file.getD "<unknown>") ++ ":" ++
    (match record.line with
     | some n => toString n
     | none => "<unknown>")

/-- `write_module` (logging.rs:147-151). -/
def writeModule (record : Record) : String :=
  record.modulePath.getD "<unknown>"

/-- `write_thread_id` (logging.rs:172-186): the numeric id with the
`ThreadId(...)` wrapper stripped (modelled as `ctx.threadId`), padded. -/
def writeThreadId (config : Config) (ctx : Ctx) : String :=
  match config.threadPadding with
  | .left w => padStart w ctx.threadId
  | .right w => padEnd w ctx.threadId
  | .off => ctx.threadId

/-- `write_thread_name` (logging.rs:153-170): the thread's name when it has
one, else the id in `Both` mode, else the empty string. -/
def writeThreadName (config : Config) (ctx : Ctx) : String :=
  match ctx.threadName with
  | some name =>
    match config.threadPadding with
    | .left w => padStart w name
    | .right w => padEnd w name
    | .off => name
  | none =>
    if config.threadLogMode = .both then writeThreadId config ctx else ""

/-- `write_args` (logging.rs:190-192): the message followed by the
configured line ending. -/
def writeArgs (record : Record) (lineEnding : String) : String :=
  record.args ++ lineEnding

/-- `should_skip` (logging.rs:195-221): skip when the allow list is
non-empty and no allow entry is a prefix of the target, or when the ignore
list is non-empty and some ignore entry is a prefix of the target. -/
def shouldSkip (config : Config) (record : Record) : Bool :=
  if ¬ config.filterAllow.isEmpty ∧
      ¬ config.filterAllow.any (fun v => strStarts record.target v) then
    true
  else if ¬ config.filterIgnore.isEmpty ∧
      config.filterIgnore.any (fun v => strStarts record.target v) then
    true
  else false

/-- `try_log` (logging.rs:12-91), with `fuel` bounding the template
renderer's loop: returns the text written to the sink, `some ""` when the
record is filtered or outside the level band, and `none` when the renderer
does not finish within `fuel` iterations. -/
def tryLogFuel (fuel : Nat) (config : Config) (ctx : Ctx) (record : Record) :
    Option String :=
  if shouldSkip config record then some ""
  else if record.level.toUsize > config.minLevel.toUsize ∨
      record.level.toUsize < config.maxLevel.toUsize then some ""
  else
    let time := if config.format &&& FormatTime ≠ 0 then ctx.timeStr else ""
    let level := if config.format &&& FormatLevelFlag ≠ 0 then writeLevel config record else ""
    let thread :=
      if config.format &&& FormatThread ≠ 0 then
        match config.threadLogMode with
        | .ids => writeThreadId config ctx
        | .names => writeThreadName config ctx
        | .both => writeThreadName config ctx
      else ""
    let target := if config.format &&& FormatTarget ≠ 0 then writeTarget config record else ""
    let location := if config.format &&& FormatFileLocation ≠ 0 then writeLocation record else ""
    let moduleS := if config.format &&& FormatModule ≠ 0 then writeModule record else ""
    let args := writeArgs record config.lineEnding
    match config.formatter with
    | some tpl =>
      renderFromStart fuel false
        ⟨level.toList, time.toList, thread.toList, target.toList,
         location.toList, moduleS.toList, args.toList⟩ tpl.toList
    | none =>
      some ((if ¬ time = "" then time else "")
        ++ (if ¬ level = "" then " [" ++ level ++ "]" else "")
        ++ (if ¬ thread = "" then " (" ++ thread ++ ")" else "")
        ++ (if ¬ target = "" then " " ++ target ++ ":" else "")
        ++ (" " ++ args)
        ++ (if ¬ location = "" then " [" ++ location ++ "]" else "")
        ++ "\n")

/-- Concrete field values used to instantiate the general theorems. -/
def sampleFields : Fields :=
  ⟨"INFO".toList, "12:00:00".toList, "main".toList, "app".toList,
   "lib.rs:10".toList, "app::util".toList, "hello\n".toList⟩

/-- The template of the unterminated-placeholder claim, `"prefix \x7btime"`,
as an explicit character list. -/
def c1tpl : List Char :=
  ['p', 'r', 'e', 'f', 'i', 'x', ' ', lbraceChar, 't', 'i', 'm', 'e']

/-- The configuration of the fallback-composer claim: format flags
`\x7blevel, target\x7d`, everything else default. -/
def c5config : Config :=
  { defaultConfig with format := FormatLevelFlag ||| FormatTarget }

/-- The record of the fallback-composer claim. -/
def c5record : Record :=
  ⟨.info, "net::io", none, none, none, "connected"⟩

/-- An ambient context for the fallback-composer claim (the flags leave
time and thread unused). -/
def c5ctx : Ctx :=
  ⟨"", none, "1"⟩

/- ------------------------------------------------------------------ -/
/- General lemmas about the style-modifier loop.                       -/
/- ------------------------------------------------------------------ -/

/-- One style-loop iteration changes the foreground exactly by
`Option::or`-ing in the token's foreground contribution. -/
lemma styleStep_fg (key : List Char) (d : StyleDescriptor) (s : List Char) :
    (styleStep key d s).fg = (d.fg <|> fgTok s) := by
  simp only [styleStep, fgTok]
  rcases h : applyStyle s with _ | ⟨c, b⟩ <;> [skip; cases b] <;>
    simp only [h] <;> split_ifs <;> cases d.fg <;> rfl

/-- One style-loop iteration changes the background exactly by
`Option::or`-ing in the token's background contribution. -/
lemma styleStep_bg (key : List Char) (d : StyleDescriptor) (s : List Char) :
    (styleStep key d s).bg = (d.bg <|> bgTok s) := by
  simp only [styleStep, bgTok]
  rcases h : applyStyle s with _ | ⟨c, b⟩ <;> [skip; cases b] <;>
    simp only [h] <;> split_ifs <;> cases d.bg <;> rfl

/-- One style-loop iteration clears `use_bracket_level` exactly on a
suppression keyword with key `level`. -/
lemma styleStep_ubl (key : List Char) (d : StyleDescriptor) (s : List Char) :
    (styleStep key d s).useBracketLevel =
      if suppTok s = true ∧ key = "level".toList then false
      else d.useBracketLevel := by
  simp only [styleStep, suppTok]
  rcases h : applyStyle s with _ | ⟨c, b⟩ <;> [skip; cases b] <;>
    simp only [h] <;> split_ifs <;> simp_all

/-- Folding the style loop: the foreground is the first token
contribution, in list order, unless one was already set. -/
lemma foldl_fg (key : List Char) (styles : List (List Char)) (d : StyleDescriptor) :
    (styles.foldl (styleStep key) d).fg = (d.fg <|> (styles.filterMap fgTok).head?) := by
  induction styles generalizing d with
  | nil => simp
  | cons s rest ih =>
    rw [List.foldl_cons, ih, styleStep_fg, List.filterMap_cons]
    rcases h : fgTok s with _ | c <;> rcases hd : d.fg with _ | a <;> simp [h, hd]

/-- Folding the style loop: the background is the first token
contribution, in list order, unless one was already set. -/
lemma foldl_bg (key : List Char) (styles : List (List Char)) (d : StyleDescriptor) :
    (styles.foldl (styleStep key) d).bg = (d.bg <|> (styles.filterMap bgTok).head?) := by
  induction styles generalizing d with
  | nil => simp
  | cons s rest ih =>
    rw [List.foldl_cons, ih, styleStep_bg, List.filterMap_cons]
    rcases h : bgTok s with _ | c <;> rcases hd : d.bg with _ | a <;> simp [h, hd]

/-- Folding the style loop: bracket suppression happens exactly when the
key is `level` and some token is a suppression keyword. -/
lemma foldl_ubl (key : List Char) (styles : List (List Char)) (d : StyleDescriptor) :
    (styles.foldl (styleStep key) d).useBracketLevel =
      if key = "level".toList then d.useBracketLevel && !(styles.any suppTok)
      else d.useBracketLevel := by
  induction styles generalizing d with
  | nil => split_ifs <;> simp
  | cons s rest ih =>
    rw [List.foldl_cons, ih, styleStep_ubl]
    by_cases hk : key = "level".toList <;> by_cases hs : suppTok s <;>
      simp_all [List.any_cons]

/-- For the `level` key, the resolved descriptor keeps brackets exactly
when no modifier token is a suppression keyword. -/
lemma resolveStyles_level_ubl (styles : List (List Char)) :
    (resolveStyles "level".toList styles).useBracketLevel = !(styles.any suppTok) := by
  unfold resolveStyles
  rw [foldl_ubl]
  simp [initDescr]

/- ------------------------------------------------------------------ -/
/- Claim theorems.                                                     -/
/- ------------------------------------------------------------------ -/

/-- C9: when a placeholder's modifier list contains several tokens that
parse as foreground colors, the first successful foreground match
determines the descriptor's foreground and all later foreground tokens are
ignored, and likewise the first successful background match determines the
background (first-match-wins): the resolved foreground (background) is the
head of the per-token foreground (background) contributions in list
order. -/
theorem c9_first_color_wins (key : List Char) (styles : List (List Char)) :
    (resolveStyles key styles).fg = (styles.filterMap fgTok).head? ∧
    (resolveStyles key styles).bg = (styles.filterMap bgTok).head? := by
  unfold resolveStyles
  refine ⟨?_, ?_⟩
  · rw [foldl_fg]; rfl
  · rw [foldl_bg]; rfl

/-- C3, counterexample: on a plain (non-terminal) writer the template
`\x7blevel:nb\x7d` still renders the level wrapped in brackets, so the
claim that `nb` suppresses brackets on every sink fails. -/
theorem c3_counterexample :
    renderFromStart 2 false sampleFields (String.toList "\x7blevel:nb\x7d") =
      some "[INFO]" ∧ ("[INFO]" : String) ≠ "INFO" :=
  ⟨by decide, by decide⟩

/-- C3, amended: for a placeholder whose key is `level`, rendering to a
color-capable terminal writes the level bare exactly when some modifier
token is a bracket-suppression keyword (`nb`, `nobrackets`, `no_brackets`,
case-insensitively) and bracketed otherwise, while rendering to a plain
(non-terminal) writer never parses modifiers and always writes the level
wrapped in `[` `]`. -/
theorem c3_amended (f : Fields) (ph : List Char)
    (h : (splitOnChar ':' ph).headD [] = "level".toList) :
    placeholderEmit true f ph =
      (if (stylesOf ph).any suppTok then f.level else '[' :: (f.level ++ [']'])) ∧
    placeholderEmit false f ph = '[' :: (f.level ++ [']']) := by
  have h1 : ¬("level".toList = "time".toList) := by decide
  have h2 : ¬("level".toList = "thread".toList) := by decide
  have h3 : ¬("level".toList = "target".toList) := by decide
  constructor
  · simp only [placeholderEmit, stylesOf, h, if_true]
    rw [if_neg h1, if_neg h2, if_neg h3, resolveStyles_level_ubl]
    by_cases ha : ((if (splitOnChar ':' ph).length > 1
        then (splitOnChar ':' ph).tail else []).any suppTok) <;>
      simp [ha]
  · simp only [placeholderEmit, h, Bool.false_eq_true, if_false, if_true]
    rw [if_neg h1, if_neg h2, if_neg h3]

/-- C3, witness for the amended theorem at the concrete placeholder
`level:nb`. -/
theorem c3_witness :
    placeholderEmit true sampleFields (String.toList "level:nb") =
      String.toList "INFO" ∧
    placeholderEmit false sampleFields (String.toList "level:nb") =
      String.toList "[INFO]" := by
  have h := c3_amended sampleFields (String.toList "level:nb") (by decide)
  exact ⟨by rw [h.1]; decide, by rw [h.2]; decide⟩

/-- C2, counterexample: the template `\x7bbogus\x7d` renders as `bogus`,
without the delimiters, so the claim that the literal placeholder text
including delimiters is re-emitted fails. -/
theorem c2_counterexample :
    renderFromStart 2 false sampleFields (String.toList "\x7bbogus\x7d") =
      some "bogus" ∧ ("bogus" : String) ≠ "\x7bbogus\x7d" :=
  ⟨by decide, by decide⟩

/-- C2, amended: for every placeholder whose key is none of time, thread,
target, level, file, module, message, the renderer re-emits the
placeholder's inner text (key and modifiers, without the surrounding brace
delimiters), on terminal and plain sinks alike. -/
theorem c2_amended (isTerminal : Bool) (f : Fields) (ph : List Char)
    (h : (splitOnChar ':' ph).headD [] ∉ knownKeys) :
    placeholderEmit isTerminal f ph = ph := by
  simp only [knownKeys, List.mem_cons, List.not_mem_nil, or_false] at h
  push_neg at h
  obtain ⟨h1, h2, h3, h4, h5, h6, h7⟩ := h
  simp only [placeholderEmit]
  rw [if_neg h1, if_neg h2, if_neg h3, if_neg h4, if_neg h5, if_neg h6, if_neg h7]

/-- C2, witness for the amended theorem at the concrete placeholder body
`bogus`. -/
theorem c2_witness :
    placeholderEmit false sampleFields (String.toList "bogus") =
      String.toList "bogus" :=
  c2_amended false sampleFields (String.toList "bogus") (by decide)

/-- C4, counterexample: `rgb(100%,0%,0%)` parses to `Rgb(100,0,0)`, while
`rgb(255,0,0)` parses to `Rgb(255,0,0)`, so the two are not the same color
and no linear percentage scaling happens. -/
theorem c4_counterexample :
    parseRgb (String.toList "100%,0%,0%") = some (Color.rgb 100 0 0) ∧
    parseRgb (String.toList "255,0,0") = some (Color.rgb 255 0 0) ∧
    parseRgb (String.toList "100%,0%,0%") ≠ parseRgb (String.toList "255,0,0") :=
  ⟨by decide, by decide, by decide⟩

/-- C4, amended: a percentage component `N%` is parsed as the raw integer
`N` (any value a `u8` parse accepts, not scaled to the 0-255 range):
stripping the `%` suffix hands the number through unchanged with the
percent flag set, and in particular `rgb(100%,0%,0%)` parses to
`Rgb(100,0,0)`. -/
theorem c4_amended :
    (∀ s : List Char, parsePercentOr255 (s ++ ['%']) =
      (parseU8Radix 10 s).map fun t => (t, true)) ∧
    parseRgb (String.toList "100%,0%,0%") = some (Color.rgb 100 0 0) := by
  refine ⟨?_, by decide⟩
  intro s
  simp [parsePercentOr255, List.getLast?_concat, List.dropLast_concat]

/-- C8: for every `rgb(...)` component string whose three comma-separated
components parse with unit flags that do not all agree, the color parser
returns `none` for the whole triple. -/
theorem c8_mixed_units (s p1 p2 p3 : List Char) (a b c : Nat) (fa fb fc : Bool)
    (hs : splitTrim s = [p1, p2, p3])
    (h1 : parsePercentOr255 p1 = some (a, fa))
    (h2 : parsePercentOr255 p2 = some (b, fb))
    (h3 : parsePercentOr255 p3 = some (c, fc))
    (hne : ¬(fa = fb ∧ fb = fc)) :
    parseRgb s = none := by
  simp only [parseRgb, hs]
  simp [h1, h2, h3, hne]

/-- C8, witness at the mixed-unit triple `50%,10,0` of the claim. -/
theorem c8_witness : parseRgb (String.toList "50%,10,0") = none :=
  c8_mixed_units (String.toList "50%,10,0") (String.toList "50%")
    (String.toList "10") (String.toList "0") 50 10 0 true false false
    (by decide) (by decide) (by decide) (by decide) (by decide)

/-- C7: `should_skip` returns `false` exactly when the allow list is empty
or some allow entry is a prefix of the record's target, and the ignore
list is empty or no ignore entry is a prefix of the target; in particular
it returns `false` whenever both filter lists are empty.  (The embedding is
a pure function, so the check has no side effects.) -/
theorem c7_filter_iff (config : Config) (record : Record) :
    (shouldSkip config record = false ↔
      ((config.filterAllow = [] ∨
          ∃ p ∈ config.filterAllow, strStarts record.target p = true) ∧
       (config.filterIgnore = [] ∨
          ∀ p ∈ config.filterIgnore, ¬ strStarts record.target p = true))) ∧
    (config.filterAllow = [] → config.filterIgnore = [] →
      shouldSkip config record = false) := by
  constructor
  · unfold shouldSkip
    split_ifs with h1 h2
    · simp only [List.isEmpty_iff, List.any_eq_true] at h1
      refine iff_of_false (by simp) ?_
      rintro ⟨hA, _⟩
      rcases hA with hA | ⟨p, hp, hps⟩
      · exact h1.1 hA
      · exact h1.2 ⟨p, hp, hps⟩
    · simp only [List.isEmpty_iff, List.any_eq_true] at h1 h2
      refine iff_of_false (by simp) ?_
      rintro ⟨_, hI⟩
      rcases hI with hI | hI
      · exact h2.1 hI
      · obtain ⟨p, hp, hps⟩ := h2.2
        exact hI p hp hps
    · simp only [List.isEmpty_iff, List.any_eq_true] at h1 h2
      push_neg at h1 h2
      refine iff_of_true rfl ⟨?_, ?_⟩
      · by_cases hA : config.filterAllow = []
        · exact Or.inl hA
        · exact Or.inr (h1 hA)
      · by_cases hI : config.filterIgnore = []
        · exact Or.inl hI
        · exact Or.inr (h2 hI)
  · intro hA hI
    unfold shouldSkip
    simp [hA, hI]

/-- C7, witness: with both filter lists empty (default configuration) the
filter does not skip. -/
theorem c7_witness :
    shouldSkip defaultConfig ⟨Level.info, "app", none, none, none, "m"⟩ = false :=
  (c7_filter_iff defaultConfig ⟨Level.info, "app", none, none, none, "m"⟩).2 rfl rfl

/-- C10: `try_log` writes nothing and returns `Ok(())` (modelled as
`some ""`) for every non-filtered record whose level is above `min_level`
or below `max_level` in the `as usize` order, and with the default
configuration (`min_level = Trace`, `max_level = Error`) no record at all
satisfies that band condition, so the gate drops nothing. -/
theorem c10_level_gate :
    (∀ (fuel : Nat) (config : Config) (ctx : Ctx) (record : Record),
      shouldSkip config record = false →
      (record.level.toUsize > config.minLevel.toUsize ∨
        record.level.toUsize < config.maxLevel.toUsize) →
      tryLogFuel fuel config ctx record = some "") ∧
    (∀ record : Record,
      ¬(record.level.toUsize > defaultConfig.minLevel.toUsize ∨
        record.level.toUsize < defaultConfig.maxLevel.toUsize)) := by
  constructor
  · intro fuel config ctx record hskip hband
    simp [tryLogFuel, hskip, hband]
  · intro record
    obtain ⟨lvl, t, fi, li, mo, ar⟩ := record
    cases lvl <;> simp [Level.toUsize, LevelFilter.toUsize, defaultConfig]

/-- C10, witness: a `Trace` record against `min_level = Error` is inside
the gate and yields an empty write. -/
theorem c10_witness :
    tryLogFuel 0 { defaultConfig with minLevel := LevelFilter.error }
      ⟨"", none, "1"⟩ ⟨Level.trace, "app", none, none, none, "m"⟩ = some "" :=
  c10_level_gate.1 0 { defaultConfig with minLevel := LevelFilter.error }
    ⟨"", none, "1"⟩ ⟨Level.trace, "app", none, none, none, "m"⟩
    (by decide) (by decide)

/-- C5, counterexample: with no template, format flags level and target, an
Info record targeting `net::io` with message `connected` and the default
line ending, the composed output is not `" [INFO] net::io: connected\n"`
(the composer writes the line ending and then another newline). -/
theorem c5_counterexample :
    tryLogFuel 1 c5config c5ctx c5record ≠ some " [INFO] net::io: connected\n" := by
  decide

/-- C5, amended: the fallback composer emits the non-empty fields in the
fixed order, with the configured line ending appended to the message and an
unconditional final newline after the whole line, so the output here equals
`" [INFO] net::io: connected\n\n"`. -/
theorem c5_amended :
    tryLogFuel 1 c5config c5ctx c5record = some " [INFO] net::io: connected\n\n" := by
  decide

/-- On the template `prefix \x7btime`, every loop iteration from a position
at or before the opening brace either advances by one over a literal
character or — at the brace, where no closing brace follows — returns the
state unchanged. -/
lemma c1_step (f : Fields) (i le : Nat) (out : List Char) (h : i ≤ 7) :
    renderStep false f c1tpl ⟨i, le, out⟩ =
      Sum.inl ⟨if i < 7 then i + 1 else 7, le, out⟩ := by
  interval_cases i <;> rfl

/-- On the template `prefix \x7btime`, the render loop never terminates
from any state at or before the opening brace, whatever the fuel. -/
lemma c1_noterm (f : Fields) (fuel : Nat) :
    ∀ (i le : Nat) (out : List Char), i ≤ 7 →
      renderFuel false f c1tpl fuel ⟨i, le, out⟩ = none := by
  induction fuel with
  | zero => intro i le out h; rfl
  | succ n ih =>
    intro i le out h
    simp only [renderFuel, c1_step f i le out h]
    exact ih _ le out (by split <;> omega)

/-- C1: rendering the template `prefix \x7btime` never completes — for every
fuel bound the render loop is still running (the loop index stops advancing
at the unterminated opening brace), so nothing at all is emitted, contrary
to the claim that the remaining text is emitted verbatim. -/
theorem c1_unterminated_diverges (f : Fields) (fuel : Nat) :
    renderFromStart fuel false f (String.toList "prefix \x7btime") = none := by
  have h : String.toList "prefix \x7btime" = c1tpl := by decide
  rw [renderFromStart, h]
  exact c1_noterm f fuel 0 0 [] (by omega)

/-- A digit accepted by `digitValue` is below the radix. -/
lemma digitValue_lt (radix : Nat) (c : Char) (d : Nat)
    (h : digitValue radix c = some d) : d < radix := by
  simp only [digitValue] at h
  split_ifs at h <;> simp_all [Option.ite_none_right_eq_some] <;> omega

/-- Reading the same hex digit twice parses to 17 times the single-digit
value (and fails exactly when the single digit fails). -/
lemma singleDouble (d : Char) :
    parseU8Radix 16 [d, d] = (parseU8Radix 16 [d]).map fun v => v * 17 := by
  by_cases hp : d = '+'
  · subst hp; decide
  · simp only [parseU8Radix, if_neg hp]
    rcases h : digitValue 16 d with _ | v
    · simp [parseDigitsU8, h]
    · have hv : v < 16 := digitValue_lt 16 d v h
      have hb1 : (0 * 16 + v) * 16 + v ≤ 255 := by omega
      have hb2 : 0 * 16 + v ≤ 255 := by omega
      simp [parseDigitsU8, List.foldl, h, hb1, hb2]
      rw [if_pos (by omega : v * 16 + v ≤ 255), if_pos (by omega : v ≤ 255),
        Option.some.injEq]
      omega

/-- C6: a 3-hex-digit body parses to the same color as the 6-digit body
obtained by doubling each digit (in fact the two sides agree for all
characters), every body whose length is neither 3 nor 6 parses to `none`,
and in particular `#fff` equals `#ffffff` while `#12` and `#12345` fail. -/
theorem c6_hex_doubling :
    (∀ d1 d2 d3 : Char, parseHex [d1, d2, d3] = parseHex [d1, d1, d2, d2, d3, d3]) ∧
    (∀ s : List Char, s.length ≠ 3 → s.length ≠ 6 → parseHex s = none) ∧
    parseHex (String.toList "fff") = parseHex (String.toList "ffffff") ∧
    parseHex (String.toList "12") = none ∧
    parseHex (String.toList "12345") = none := by
  refine ⟨?_, ?_, by decide, by decide, by decide⟩
  · intro d1 d2 d3
    by_cases h1 : d1.toNat < 128
    case neg => simp [parseHex, allAscii, h1]
    by_cases h2 : d2.toNat < 128
    case neg => simp [parseHex, allAscii, h1, h2]
    by_cases h3 : d3.toNat < 128
    case neg => simp [parseHex, allAscii, h1, h2, h3]
    have e1 : sliceCL [d1, d2, d3] 0 1 = [d1] := rfl
    have e2 : sliceCL [d1, d2, d3] 1 2 = [d2] := rfl
    have e3 : sliceCL [d1, d2, d3] 2 3 = [d3] := rfl
    have f1 : sliceCL [d1, d1, d2, d2, d3, d3] 0 2 = [d1, d1] := rfl
    have f2 : sliceCL [d1, d1, d2, d2, d3, d3] 2 4 = [d2, d2] := rfl
    have f3 : sliceCL [d1, d1, d2, d2, d3, d3] 4 6 = [d3, d3] := rfl
    simp only [parseHex, allAscii, List.all_cons, List.all_nil, e1, e2, e3, f1, f2, f3]
    rw [singleDouble d1, singleDouble d2, singleDouble d3]
    rcases p1 : parseU8Radix 16 [d1] with _ | a <;>
      rcases p2 : parseU8Radix 16 [d2] with _ | b <;>
      rcases p3 : parseU8Radix 16 [d3] with _ | c <;>
      simp [h1, h2, h3]
  · intro s h3 h6
    by_cases hA : allAscii s
    · simp [parseHex, hA, h3, h6]
    · simp [parseHex, hA]

/-- C6, witness: a length-2 body fails to parse, and the doubling law at
the concrete digits `f`, `0`, `a`. -/
theorem c6_witness :
    parseHex ['a', 'b'] = none ∧
    parseHex ['f', '0', 'a'] = parseHex ['f', 'f', '0', '0', 'a', 'a'] :=
  ⟨c6_hex_doubling.2.1 ['a', 'b'] (by decide) (by decide),
   c6_hex_doubling.1 'f' '0' 'a'⟩

end SpLog
